import Mathlib

/-!
Shallow embedding of the couplet-generation teaching app (FNN/RNN/LSTM demo):
the training-lab simulator (`src/components/TrainingLab.tsx`), the guided
stepper (`src/components/NetworkVisualizer.tsx` together with the app shell),
and the generation service wrapper (`generateCouplet`).

JavaScript numbers are modelled as real numbers; `Math.random()` draws are
passed in explicitly as real parameters assumed to lie in `[0, 1)`;
`x.toFixed(3)` is modelled as rounding to the nearest thousandth with ties
rounded up (`round3`), matching `Number.prototype.toFixed` for the
non-negative values that occur here.
-/

/-- The three selectable architectures (`ModelType` in `src/types.ts`). -/
inductive ModelType
  | fnn
  | rnn
  | lstm
deriving DecidableEq

/-- Training parameters (`TrainingParams` in `src/types.ts`). -/
structure TrainingParams where
  epochs : Nat
  learningRate : ℝ

/-- The valid parameter domain: the epochs slider offers 10..100 and the
learning-rate buttons offer exactly 0.1, 0.01, 0.001. -/
def validParams (p : TrainingParams) : Prop :=
  10 ≤ p.epochs ∧ p.epochs ≤ 100 ∧
    (p.learningRate = 0.1 ∨ p.learningRate = 0.01 ∨ p.learningRate = 0.001)

/-- The clamp `Math.max(0, Math.min(1, x))` from `trainStep`. -/
noncomputable def clamp01 (x : ℝ) : ℝ := max 0 (min 1 x)

/-- The rounding `parseFloat(x.toFixed(3))`: nearest thousandth, ties up. -/
noncomputable def round3 (x : ℝ) : ℝ := ((round (x * 1000) : ℤ) : ℝ) / 1000

/-- The learning-rate factor
`params.learningRate === 0.01 ? 1.0 : params.learningRate > 0.05 ? 0.5 : 0.8`. -/
noncomputable def lrFactor (lr : ℝ) : ℝ :=
  if lr = 0.01 then 1.0 else if 0.05 < lr then 0.5 else 0.8

/-- The target floor loss
`0.05 + (Math.random() * 0.1) + (params.learningRate > 0.05 ? 0.2 : 0)`,
with `r` the random draw. -/
noncomputable def targetLossOf (lr r : ℝ) : ℝ :=
  0.05 + r * 0.1 + (if 0.05 < lr then 0.2 else 0)

/-- The tick loss before clamping: `targetLoss + (decay * (1 - targetLoss)) + noise`
with `decay = exp(-progressRatio * 5 * lrFactor)`,
`noise = (Math.random() - 0.5) * (learningRate * 2)`, `rN` the noise draw. -/
noncomputable def tickLossPre (lr tL : ℝ) (N e : ℕ) (rN : ℝ) : ℝ :=
  let progressRatio : ℝ := (e : ℝ) / (N : ℝ)
  let decay : ℝ := Real.exp (-(progressRatio * 5 * lrFactor lr))
  let noiseMagnitude : ℝ := lr * 2
  let noise : ℝ := (rN - 0.5) * noiseMagnitude
  tL + decay * (1 - tL) + noise

open Classical in
/-- The tick loss as `trainStep` computes it: clamp to `[0,1]` first and, for
the recurrent model in the back half (`progressRatio > 0.5`), add the
instability term `Math.random() * 0.05` (draw `rI`) afterwards. -/
noncomputable def tickLoss (m : ModelType) (lr tL : ℝ) (N e : ℕ) (rN rI : ℝ) : ℝ :=
  let clamped := clamp01 (tickLossPre lr tL N e rN)
  if m = ModelType.rnn ∧ (1 : ℝ) / 2 < (e : ℝ) / (N : ℝ) then clamped + rI * 0.05
  else clamped

open Classical in
/-- The tick loss in the order the spec's words describe it: the instability
term is added before the clamp. Compared with `tickLoss` (the source's
order) for the refinement part of claim C1. -/
noncomputable def tickLossSpecOrder (m : ModelType) (lr tL : ℝ) (N e : ℕ) (rN rI : ℝ) : ℝ :=
  clamp01 (tickLossPre lr tL N e rN +
    (if m = ModelType.rnn ∧ (1 : ℝ) / 2 < (e : ℝ) / (N : ℝ) then rI * 0.05 else 0))

/-- One plotted metric sample (`TrainingMetric` in `src/types.ts`). -/
structure MetricSample where
  epoch : ℕ
  loss : ℝ
  accuracy : ℝ

/-- The sample `trainStep` emits for a tick whose (unrounded) loss is `L`:
`{ epoch, loss: parseFloat(L.toFixed(3)), accuracy: parseFloat((1-L).toFixed(3)) }`. -/
noncomputable def mkSample (e : ℕ) (L : ℝ) : MetricSample :=
  { epoch := e, loss := round3 L, accuracy := round3 (1 - L) }

/-- Appending a sample to the chart history with the 50-point cap:
`if (newMetrics.length > 50) return newMetrics.slice(newMetrics.length - 50)`. -/
def pushCapped (h : List MetricSample) (s : MetricSample) : List MetricSample :=
  let h2 := h ++ [s]
  if h2.length > 50 then h2.drop (h2.length - 50) else h2

/-- Result of a generation call (`CoupletResult` in `src/types.ts`; the
optional quality score is always set by `generateCouplet`, so it is a plain
field here). -/
structure CoupletResult where
  upper : String
  lower : String
  explanation : String
  qualityScore : ℤ

/-- The training context optionally passed to `generateCouplet`. -/
structure TrainingContext where
  loss : ℝ
  epochs : ℕ

/-- The loss `generateCouplet` works with: `trainingContext?.loss ?? 0.1`. -/
def contextLoss (ctx : Option TrainingContext) : ℝ :=
  match ctx with
  | some c => c.loss
  | none => 0.1

/-- Which of the three training-state prompt branches is taken. -/
inductive PromptBranch
  | underfitted
  | converged
  | middling
deriving DecidableEq

open Classical in
/-- The prompt branch chosen from the loss: `isUnderfitted` (`loss > 0.4`)
first, then `isConverged` (`loss < 0.2`), else the middle branch. -/
noncomputable def promptBranch (loss : ℝ) : PromptBranch :=
  if 0.4 < loss then PromptBranch.underfitted
  else if loss < 0.2 then PromptBranch.converged
  else PromptBranch.middling

/-- The quality score `Math.max(0, Math.min(100, Math.round((1 - loss) * 100)))`. -/
noncomputable def qualityScoreOf (loss : ℝ) : ℤ :=
  max 0 (min 100 (round ((1 - loss) * 100)))

/-- How the external call can go, as seen by `generateCouplet`: the fetch can
reject, return a non-OK status, return a body with no candidate text, return
text `JSON.parse` rejects, or return parsed JSON with optional fields. -/
inductive ApiOutcome
  | networkFailure (msg : String)
  | httpError (status : ℕ) (errorText : String)
  | noText
  | unparseable (msg : String)
  | parsed (lower : Option String) (explanation : Option String)

/-- The catch-block result: a fixed sentinel lower line, the failure cause in
the explanation, and a zero quality score. -/
def failureResult (upper msg : String) : CoupletResult :=
  { upper := upper
    lower := "调用失败"
    explanation := "请确保已配置 Google Gemini API Key。错误详情: " ++ msg
    qualityScore := 0 }

/-- The shallow embedding of `generateCouplet` (`src/services/geminiService.ts`,
shown in the second half of `src/types.ts` here). It is a total function:
every failure of the collaborator is caught and turned into `failureResult`,
so the returned promise never rejects. -/
noncomputable def generateCouplet (upper : String) (modelType : ModelType)
    (trainingContext : Option TrainingContext) (apiKey : Option String)
    (outcome : ApiOutcome) : CoupletResult :=
  let loss := contextLoss trainingContext
  match apiKey with
  | none => failureResult upper ("API Key is missing")
  | some _ =>
    match outcome with
    | ApiOutcome.networkFailure msg => failureResult upper msg
    | ApiOutcome.httpError s t =>
        failureResult upper ("Gemini API Error: " ++ toString s ++ " - " ++ t)
    | ApiOutcome.noText => failureResult upper ("No response from Gemini API")
    | ApiOutcome.unparseable msg => failureResult upper msg
    | ApiOutcome.parsed lo ex =>
        { upper := upper
          lower := lo.getD ("生成失败")
          explanation := ex.getD ("无法解释")
          qualityScore := qualityScoreOf loss }

/-- The spec's quality-score formula `round(clamp((1 - finalLoss) * 100, 0, 100))`,
to be compared with the source's `qualityScoreOf` for claim C7. -/
noncomputable def specQualityScore (l : ℝ) : ℤ :=
  round (max (0 : ℝ) (min 100 ((1 - l) * 100)))

/- ### Rounding helpers -/

theorem round_le_round {x y : ℝ} (h : x ≤ y) : round x ≤ round y := by
  rw [round_eq, round_eq]
  exact Int.floor_le_floor (by linarith)

theorem round_eq_of {x : ℝ} {k : ℤ} (h1 : (k : ℝ) ≤ x + 1 / 2)
    (h2 : x + 1 / 2 < (k : ℝ) + 1) : round x = k := by
  rw [round_eq]
  exact Int.floor_eq_iff.mpr ⟨h1, by linarith⟩

theorem round3_eq_of {x : ℝ} {k : ℤ} (h1 : (k : ℝ) ≤ x * 1000 + 1 / 2)
    (h2 : x * 1000 + 1 / 2 < (k : ℝ) + 1) : round3 x = (k : ℝ) / 1000 := by
  unfold round3
  rw [round_eq_of h1 h2]

theorem round3_nonneg {x : ℝ} (hx : 0 ≤ x) : 0 ≤ round3 x := by
  unfold round3
  have h : (0 : ℤ) ≤ round (x * 1000) := by
    have := round_le_round (show (0 : ℝ) ≤ x * 1000 by nlinarith)
    simpa using this
  have h2 : (0 : ℝ) ≤ ((round (x * 1000) : ℤ) : ℝ) := by exact_mod_cast h
  linarith

theorem round3_le_one {x : ℝ} (hx : x ≤ 1) : round3 x ≤ 1 := by
  unfold round3
  have h1000 : round ((1000 : ℝ)) = (1000 : ℤ) := round_eq_of (by norm_num) (by norm_num)
  have h : round (x * 1000) ≤ (1000 : ℤ) := by
    have := round_le_round (show x * 1000 ≤ (1000 : ℝ) by nlinarith)
    rwa [h1000] at this
  have h2 : ((round (x * 1000) : ℤ) : ℝ) ≤ 1000 := by exact_mod_cast h
  linarith

theorem clamp01_mem (x : ℝ) : 0 ≤ clamp01 x ∧ clamp01 x ≤ 1 := by
  constructor
  · exact le_max_left 0 _
  · unfold clamp01
    rw [max_le_iff]
    exact ⟨by norm_num, min_le_left 1 x⟩

theorem clamp01_of_mem {x : ℝ} (h0 : 0 ≤ x) (h1 : x ≤ 1) : clamp01 x = x := by
  unfold clamp01
  rw [min_eq_right h1, max_eq_right h0]

/- ### Quality score (claim C7) -/

theorem max_min_round_comm (x : ℝ) :
    max 0 (min 100 (round x)) = round (max (0 : ℝ) (min 100 x)) := by
  rcases le_total x 0 with h0 | h0
  · have hr : round x ≤ 0 := by simpa using round_le_round h0
    rw [min_eq_right (hr.trans (by norm_num)), max_eq_left hr,
      min_eq_right (h0.trans (by norm_num)), max_eq_left h0, round_zero]
  · have h100 : round (100 : ℝ) = (100 : ℤ) :=
      round_eq_of (by norm_num) (by norm_num)
    have hr0 : (0 : ℤ) ≤ round x := by simpa using round_le_round h0
    rcases le_total x 100 with h1 | h1
    · have hr1 : round x ≤ 100 := by
        have := round_le_round h1
        rwa [h100] at this
      rw [min_eq_right hr1, max_eq_right hr0, min_eq_right h1, max_eq_right h0]
    · have hr1 : (100 : ℤ) ≤ round x := by
        have := round_le_round h1
        rwa [h100] at this
      rw [min_eq_left hr1, max_eq_right (by norm_num : (0 : ℤ) ≤ 100),
        min_eq_left h1, max_eq_right (by norm_num : (0 : ℝ) ≤ 100), h100]

/-- C7: the quality score `generateCouplet` computes,
`Math.max(0, Math.min(100, Math.round((1 - loss) * 100)))`, equals the
spec's `round(clamp((1 - finalLoss) * 100, 0, 100))`, and it is
monotonically non-increasing in the final loss. -/
theorem qualityScore_spec_eq_and_antitone :
    (∀ l : ℝ, qualityScoreOf l = specQualityScore l) ∧
    (∀ l1 l2 : ℝ, l1 < l2 → qualityScoreOf l2 ≤ qualityScoreOf l1) := by
  constructor
  · intro l
    unfold qualityScoreOf specQualityScore
    exact max_min_round_comm _
  · intro l1 l2 h
    unfold qualityScoreOf
    have hr : round ((1 - l2) * 100) ≤ round ((1 - l1) * 100) :=
      round_le_round (by nlinarith)
    exact max_le_max (le_refl 0) (min_le_min (le_refl 100) hr)

/-- Witness for C7 at the concrete pair of losses 0.2 < 0.3. -/
theorem qualityScore_spec_eq_and_antitone_witness :
    qualityScoreOf 0.3 = specQualityScore 0.3 ∧
    ((0.2 : ℝ) < 0.3 ∧ qualityScoreOf 0.3 ≤ qualityScoreOf 0.2) :=
  ⟨qualityScore_spec_eq_and_antitone.1 0.3, by norm_num,
    qualityScore_spec_eq_and_antitone.2 0.2 0.3 (by norm_num)⟩

/- ### Failure recovery (claim C6) -/

/-- C6: whenever the external call fails in any of the modelled ways
(missing API key, rejected fetch, non-OK HTTP status, missing candidate
text, unparseable output), `generateCouplet` still returns a
`CoupletResult` — it is a total Lean function, the embedding of the fact
that the try/catch makes the returned promise never reject — whose lower
line is the fixed sentinel `调用失败`, whose explanation carries the failure
cause, and whose quality score is 0. -/
theorem generateCouplet_failure_recovery (upper : String) (m : ModelType)
    (ctx : Option TrainingContext) (key : Option String) (o : ApiOutcome)
    (hfail : key = none ∨ (∃ msg, o = ApiOutcome.networkFailure msg) ∨
      (∃ s t, o = ApiOutcome.httpError s t) ∨ o = ApiOutcome.noText ∨
      ∃ msg, o = ApiOutcome.unparseable msg) :
    (generateCouplet upper m ctx key o).lower = "调用失败" ∧
    (generateCouplet upper m ctx key o).qualityScore = 0 ∧
    ∃ cause, (generateCouplet upper m ctx key o).explanation =
      "请确保已配置 Google Gemini API Key。错误详情: " ++ cause := by
  have hres : ∀ msg' : String, (failureResult upper msg').lower = "调用失败" ∧
      (failureResult upper msg').qualityScore = 0 ∧
      ∃ cause, (failureResult upper msg').explanation =
        "请确保已配置 Google Gemini API Key。错误详情: " ++ cause :=
    fun msg' => ⟨rfl, rfl, msg', rfl⟩
  rcases key with _ | k
  · exact hres ("API Key is missing")
  · rcases hfail with h | ⟨msg, h⟩ | ⟨s, t, h⟩ | h | ⟨msg, h⟩
    · simp at h
    · subst h
      exact hres msg
    · subst h
      exact hres ("Gemini API Error: " ++ toString s ++ " - " ++ t)
    · subst h
      exact hres ("No response from Gemini API")
    · subst h
      exact hres msg

/-- Witness for C6: a call with no API key configured. -/
theorem generateCouplet_failure_recovery_witness :
    (generateCouplet ("宋城千古情") ModelType.fnn none none ApiOutcome.noText).lower
        = "调用失败" ∧
    (generateCouplet ("宋城千古情") ModelType.fnn none none ApiOutcome.noText).qualityScore
        = 0 ∧
    ∃ cause,
      (generateCouplet ("宋城千古情") ModelType.fnn none none ApiOutcome.noText).explanation
        = "请确保已配置 Google Gemini API Key。错误详情: " ++ cause :=
  generateCouplet_failure_recovery ("宋城千古情") ModelType.fnn none none
    ApiOutcome.noText (Or.inl rfl)

/- ### Default training context (claim C10) -/

/-- C10: called without a training context, `generateCouplet` defaults the
loss to 0.1, which selects the converged prompt branch (`loss < 0.2`), and
any successfully parsed response carries quality score 90. -/
theorem generateCouplet_default_context (upper : String) (m : ModelType)
    (key : String) (lo ex : Option String) :
    contextLoss none = 0.1 ∧
    promptBranch (contextLoss none) = PromptBranch.converged ∧
    (generateCouplet upper m none (some key) (ApiOutcome.parsed lo ex)).qualityScore
      = 90 := by
  refine ⟨rfl, ?_, ?_⟩
  · unfold promptBranch contextLoss
    rw [if_neg (by norm_num), if_pos (by norm_num)]
  · have h1 : (generateCouplet upper m none (some key) (ApiOutcome.parsed lo ex)).qualityScore
        = qualityScoreOf 0.1 := rfl
    rw [h1]
    unfold qualityScoreOf
    have h : ((1 : ℝ) - 0.1) * 100 = 90 := by norm_num
    have h90 : round ((90 : ℝ)) = (90 : ℤ) := round_eq_of (by norm_num) (by norm_num)
    rw [h, h90]
    norm_num

/-- Witness for C10 at a concrete successful call. -/
theorem generateCouplet_default_context_witness :
    contextLoss none = 0.1 ∧
    promptBranch (contextLoss none) = PromptBranch.converged ∧
    (generateCouplet ("宋城千古情") ModelType.lstm none (some ("k"))
        (ApiOutcome.parsed (some ("下联")) (some ("解释")))).qualityScore = 90 :=
  generateCouplet_default_context ("宋城千古情") ModelType.lstm ("k")
    (some ("下联")) (some ("解释"))

/- ### Unfolding equations for the tick loss -/

theorem tickLossPre_eq (lr tL : ℝ) (N e : ℕ) (rN : ℝ) :
    tickLossPre lr tL N e rN
      = tL + Real.exp (-((e : ℝ) / (N : ℝ) * 5 * lrFactor lr)) * (1 - tL)
        + (rN - 0.5) * (lr * 2) := rfl

open Classical in
theorem tickLoss_eq (m : ModelType) (lr tL : ℝ) (N e : ℕ) (rN rI : ℝ) :
    tickLoss m lr tL N e rN rI =
      if m = ModelType.rnn ∧ (1 : ℝ) / 2 < (e : ℝ) / (N : ℝ)
      then clamp01 (tickLossPre lr tL N e rN) + rI * 0.05
      else clamp01 (tickLossPre lr tL N e rN) := rfl

/- ### Exponential bounds (claims C1, C5) -/

theorem exp_neg_mul_le {x : ℝ} (hx : 0 ≤ x) : Real.exp (-x) * (1 + x) ≤ 1 := by
  have h1 : 1 + x ≤ Real.exp x := by
    have := Real.add_one_le_exp x
    linarith
  have h2 : 0 < Real.exp (-x) := Real.exp_pos _
  have h3 : Real.exp (-x) * Real.exp x = 1 := by
    rw [← Real.exp_add]
    simp
  nlinarith

/-- In the back half of a run (`progressRatio > 1/2`) the decay envelope is
at most 4/9, for every learning-rate factor in `[1/2, 1]`. -/
theorem decay_second_half_le {p f : ℝ} (hp : 1 / 2 < p) (hf : 1 / 2 ≤ f)
    (hf1 : f ≤ 1) :
    Real.exp (-(p * 5 * f)) ≤ 4 / 9 ∧ 0 < Real.exp (-(p * 5 * f)) := by
  have hx0 : (0 : ℝ) ≤ p * 5 * f := by nlinarith
  have hx : (5 : ℝ) / 4 ≤ p * 5 * f := by nlinarith
  have h := exp_neg_mul_le hx0
  have hpos := Real.exp_pos (-(p * 5 * f))
  refine ⟨?_, hpos⟩
  nlinarith [mul_le_mul_of_nonneg_left hx hpos.le]

/-- Core arithmetic bound for the pre-instability loss in the back half:
with the decay at most 4/9, the target floor in `[1/20, 7/20]`, the noise in
`[-1/10, 1/10]` and the floor-plus-noise positive, the value is strictly
between 0 and 19/20. -/
theorem pre_bounds_core {E tL noise : ℝ}
    (hE0 : 0 < E) (hE : E ≤ 4 / 9)
    (htL0 : 1 / 20 ≤ tL) (htL1 : tL ≤ 7 / 20)
    (hn0 : -(1 / 10) ≤ noise) (hn1 : noise ≤ 1 / 10)
    (hlow : 0 < tL + noise) :
    0 < tL + E * (1 - tL) + noise ∧ tL + E * (1 - tL) + noise < 19 / 20 := by
  have h1 : 0 < 1 - tL := by linarith
  have h2 : E * (1 - tL) ≤ 4 / 9 * (1 - tL) := by nlinarith
  have h3 : 0 < E * (1 - tL) := mul_pos hE0 h1
  exact ⟨by linarith, by linarith⟩

/-- In the back half of a valid run the unclamped tick loss lies strictly
between 0 and 19/20: the clamp in `trainStep` is the identity there, and
there is room for the recurrent instability term below 1. -/
theorem tickLossPre_second_half_bounds (lr rT rN : ℝ) (N e : ℕ)
    (hlr : lr = 0.1 ∨ lr = 0.01 ∨ lr = 0.001)
    (hrT0 : 0 ≤ rT) (hrT1 : rT < 1) (hrN0 : 0 ≤ rN) (hrN1 : rN < 1)
    (hp : (1 : ℝ) / 2 < (e : ℝ) / (N : ℝ)) :
    0 < tickLossPre lr (targetLossOf lr rT) N e rN ∧
    tickLossPre lr (targetLossOf lr rT) N e rN < 19 / 20 := by
  rw [tickLossPre_eq]
  rcases hlr with h | h | h <;> subst h
  · have hf : lrFactor 0.1 = 0.5 := by
      unfold lrFactor
      rw [if_neg (by norm_num), if_pos (by norm_num)]
    have htL : targetLossOf 0.1 rT = 0.25 + rT * 0.1 := by
      unfold targetLossOf
      rw [if_pos (by norm_num)]
      ring
    rw [hf, htL]
    obtain ⟨hd1, hd2⟩ := decay_second_half_le hp
      (show (1 : ℝ) / 2 ≤ 0.5 by norm_num) (show (0.5 : ℝ) ≤ 1 by norm_num)
    exact pre_bounds_core hd2 hd1 (by linarith) (by linarith)
      (by nlinarith) (by nlinarith) (by nlinarith)
  · have hf : lrFactor 0.01 = 1.0 := by
      unfold lrFactor
      rw [if_pos rfl]
    have htL : targetLossOf 0.01 rT = 0.05 + rT * 0.1 := by
      unfold targetLossOf
      rw [if_neg (by norm_num)]
      ring
    rw [hf, htL]
    obtain ⟨hd1, hd2⟩ := decay_second_half_le hp
      (show (1 : ℝ) / 2 ≤ 1.0 by norm_num) (show (1.0 : ℝ) ≤ 1 by norm_num)
    exact pre_bounds_core hd2 hd1 (by linarith) (by linarith)
      (by nlinarith) (by nlinarith) (by nlinarith)
  · have hf : lrFactor 0.001 = 0.8 := by
      unfold lrFactor
      rw [if_neg (by norm_num), if_neg (by norm_num)]
    have htL : targetLossOf 0.001 rT = 0.05 + rT * 0.1 := by
      unfold targetLossOf
      rw [if_neg (by norm_num)]
      ring
    rw [hf, htL]
    obtain ⟨hd1, hd2⟩ := decay_second_half_le hp
      (show (1 : ℝ) / 2 ≤ 0.8 by norm_num) (show (0.8 : ℝ) ≤ 1 by norm_num)
    exact pre_bounds_core hd2 hd1 (by linarith) (by linarith)
      (by nlinarith) (by nlinarith) (by nlinarith)

/- ### Claim C1: sample bounds and clamp order -/

/-- C1: for every valid run (epochs in `[10,100]`, learning rate one of
0.1/0.01/0.001), every architecture, every epoch of the run and every triple
of uniform draws in `[0,1)`, the emitted sample's recorded loss and accuracy
lie in `[0,1]`; moreover the tick loss the source computes (clamp first,
then add the recurrent back-half instability term) coincides with the value
obtained by adding the instability term before clamping, so the claim's
reading of the order is extensionally accurate and those samples' losses
stay in `[0,1]`. -/
theorem tickLoss_bounds_and_clamp_order (m : ModelType) (lr rT rN rI : ℝ) (N e : ℕ)
    (hlr : lr = 0.1 ∨ lr = 0.01 ∨ lr = 0.001)
    (hN1 : 10 ≤ N) (hN2 : N ≤ 100) (he1 : 1 ≤ e) (he2 : e ≤ N)
    (hrT0 : 0 ≤ rT) (hrT1 : rT < 1) (hrN0 : 0 ≤ rN) (hrN1 : rN < 1)
    (hrI0 : 0 ≤ rI) (hrI1 : rI < 1) :
    (0 ≤ tickLoss m lr (targetLossOf lr rT) N e rN rI ∧
      tickLoss m lr (targetLossOf lr rT) N e rN rI ≤ 1) ∧
    tickLoss m lr (targetLossOf lr rT) N e rN rI
      = tickLossSpecOrder m lr (targetLossOf lr rT) N e rN rI ∧
    (0 ≤ (mkSample e (tickLoss m lr (targetLossOf lr rT) N e rN rI)).loss ∧
      (mkSample e (tickLoss m lr (targetLossOf lr rT) N e rN rI)).loss ≤ 1) ∧
    (0 ≤ (mkSample e (tickLoss m lr (targetLossOf lr rT) N e rN rI)).accuracy ∧
      (mkSample e (tickLoss m lr (targetLossOf lr rT) N e rN rI)).accuracy ≤ 1) := by
  have hmain : (0 ≤ tickLoss m lr (targetLossOf lr rT) N e rN rI ∧
      tickLoss m lr (targetLossOf lr rT) N e rN rI ≤ 1) ∧
      tickLoss m lr (targetLossOf lr rT) N e rN rI
        = tickLossSpecOrder m lr (targetLossOf lr rT) N e rN rI := by
    by_cases hc : m = ModelType.rnn ∧ (1 : ℝ) / 2 < (e : ℝ) / (N : ℝ)
    · obtain ⟨hpre0, hpre1⟩ :=
        tickLossPre_second_half_bounds lr rT rN N e hlr hrT0 hrT1 hrN0 hrN1 hc.2
      have hclamp : clamp01 (tickLossPre lr (targetLossOf lr rT) N e rN)
          = tickLossPre lr (targetLossOf lr rT) N e rN :=
        clamp01_of_mem hpre0.le (by linarith)
      have hL : tickLoss m lr (targetLossOf lr rT) N e rN rI
          = tickLossPre lr (targetLossOf lr rT) N e rN + rI * 0.05 := by
        rw [tickLoss_eq, if_pos hc, hclamp]
      have hinst0 : (0 : ℝ) ≤ rI * 0.05 := by nlinarith
      have hinst1 : rI * 0.05 < 0.05 := by nlinarith
      have hspec : tickLossSpecOrder m lr (targetLossOf lr rT) N e rN rI
          = tickLossPre lr (targetLossOf lr rT) N e rN + rI * 0.05 := by
        unfold tickLossSpecOrder
        rw [if_pos hc]
        exact clamp01_of_mem (by linarith) (by linarith)
      rw [hL, hspec]
      exact ⟨⟨by linarith, by linarith⟩, rfl⟩
    · have hL : tickLoss m lr (targetLossOf lr rT) N e rN rI
          = clamp01 (tickLossPre lr (targetLossOf lr rT) N e rN) := by
        rw [tickLoss_eq, if_neg hc]
      have hspec : tickLossSpecOrder m lr (targetLossOf lr rT) N e rN rI
          = clamp01 (tickLossPre lr (targetLossOf lr rT) N e rN) := by
        unfold tickLossSpecOrder
        rw [if_neg hc, add_zero]
      rw [hL, hspec]
      exact ⟨clamp01_mem _, rfl⟩
  obtain ⟨⟨hL0, hL1⟩, hord⟩ := hmain
  refine ⟨⟨hL0, hL1⟩, hord, ⟨round3_nonneg hL0, round3_le_one hL1⟩,
    ⟨round3_nonneg (by linarith), round3_le_one (by linarith)⟩⟩

/-- Witness for C1: a recurrent run with learning rate 0.1, 10 epochs, at
epoch 6 (back half), with all three draws 1/2. -/
theorem tickLoss_bounds_and_clamp_order_witness :
    (((0.1 : ℝ) = 0.1 ∨ (0.1 : ℝ) = 0.01 ∨ (0.1 : ℝ) = 0.001) ∧
      10 ≤ 10 ∧ 10 ≤ 100 ∧ 1 ≤ 6 ∧ 6 ≤ 10 ∧
      (0 : ℝ) ≤ 1 / 2 ∧ (1 / 2 : ℝ) < 1) ∧
    ((0 ≤ tickLoss ModelType.rnn 0.1 (targetLossOf 0.1 (1 / 2)) 10 6 (1 / 2) (1 / 2) ∧
      tickLoss ModelType.rnn 0.1 (targetLossOf 0.1 (1 / 2)) 10 6 (1 / 2) (1 / 2) ≤ 1) ∧
    tickLoss ModelType.rnn 0.1 (targetLossOf 0.1 (1 / 2)) 10 6 (1 / 2) (1 / 2)
      = tickLossSpecOrder ModelType.rnn 0.1 (targetLossOf 0.1 (1 / 2)) 10 6 (1 / 2) (1 / 2) ∧
    (0 ≤ (mkSample 6 (tickLoss ModelType.rnn 0.1 (targetLossOf 0.1 (1 / 2)) 10 6 (1 / 2) (1 / 2))).loss ∧
      (mkSample 6 (tickLoss ModelType.rnn 0.1 (targetLossOf 0.1 (1 / 2)) 10 6 (1 / 2) (1 / 2))).loss ≤ 1) ∧
    (0 ≤ (mkSample 6 (tickLoss ModelType.rnn 0.1 (targetLossOf 0.1 (1 / 2)) 10 6 (1 / 2) (1 / 2))).accuracy ∧
      (mkSample 6 (tickLoss ModelType.rnn 0.1 (targetLossOf 0.1 (1 / 2)) 10 6 (1 / 2) (1 / 2))).accuracy ≤ 1)) :=
  ⟨⟨Or.inl rfl, by norm_num, by norm_num, by norm_num, by norm_num, by norm_num, by norm_num⟩,
    tickLoss_bounds_and_clamp_order ModelType.rnn 0.1 (1 / 2) (1 / 2) (1 / 2) 10 6
      (Or.inl rfl) (by norm_num) (by norm_num) (by norm_num) (by norm_num)
      (by norm_num) (by norm_num) (by norm_num) (by norm_num) (by norm_num) (by norm_num)⟩

/- ### Claim C5: accuracy versus the recorded loss -/

/-- The tick loss of an `fnn` run at learning rate 0.1 with target draw 0,
evaluated at epoch 1 of 10, as a function of the noise draw `a`: the decay
is `exp(-1/4)` and the clamp is the identity when the value lands in
`[0,1]`. -/
theorem tickLoss_fnn_value (a v : ℝ)
    (hsum : 0.25 + Real.exp (-0.25) * 0.75 + (a - 0.5) * 0.2 = v)
    (h0 : 0 ≤ v) (h1 : v ≤ 1) :
    tickLoss ModelType.fnn 0.1 (targetLossOf 0.1 0) 10 1 a 0 = v := by
  have hf : lrFactor 0.1 = 0.5 := by
    unfold lrFactor
    rw [if_neg (by norm_num), if_pos (by norm_num)]
  have htL : targetLossOf 0.1 0 = 0.25 := by
    unfold targetLossOf
    rw [if_pos (by norm_num)]
    norm_num
  have hpre : tickLossPre 0.1 (targetLossOf 0.1 0) 10 1 a = v := by
    rw [tickLossPre_eq, hf, htL]
    have hcast : ((1 : ℕ) : ℝ) / ((10 : ℕ) : ℝ) * 5 * 0.5 = 0.25 := by norm_num
    rw [hcast]
    linear_combination hsum
  rw [tickLoss_eq, if_neg (by rintro ⟨hm, -⟩; exact absurd hm (by decide)), hpre]
  exact clamp01_of_mem h0 h1

/-- C5 counterexample: at learning rate 0.1, 10 epochs, epoch 1, target and
instability draws 0 and noise draw `3.4225 - 3.75 * exp(-1/4)` — a valid
draw in `[0,1)` — the tick loss is exactly 0.8345, a rounding tie. The
emitted sample records loss 0.835 and accuracy 0.166, while
`round(1 - 0.835, 3) = 0.165`, so the sample's accuracy differs from
`round(1 - loss, 3)` computed from its recorded loss. -/
theorem sample_accuracy_tie_counterexample :
    (0 ≤ 3.4225 - 3.75 * Real.exp (-0.25) ∧ 3.4225 - 3.75 * Real.exp (-0.25) < 1) ∧
    (mkSample 1 (tickLoss ModelType.fnn 0.1 (targetLossOf 0.1 0) 10 1
        (3.4225 - 3.75 * Real.exp (-0.25)) 0)).accuracy
      ≠ round3 (1 - (mkSample 1 (tickLoss ModelType.fnn 0.1 (targetLossOf 0.1 0) 10 1
        (3.4225 - 3.75 * Real.exp (-0.25)) 0)).loss) := by
  have he1 : (0.75 : ℝ) ≤ Real.exp (-0.25) := by
    have := Real.add_one_le_exp (-0.25 : ℝ)
    linarith
  have he2 : Real.exp (-0.25) ≤ 0.8 := by
    have h := exp_neg_mul_le (show (0 : ℝ) ≤ 0.25 by norm_num)
    linarith
  have hval : tickLoss ModelType.fnn 0.1 (targetLossOf 0.1 0) 10 1
      (3.4225 - 3.75 * Real.exp (-0.25)) 0 = 0.8345 :=
    tickLoss_fnn_value _ _ (by ring) (by norm_num) (by norm_num)
  refine ⟨⟨by linarith, by linarith⟩, ?_⟩
  have hacc : (mkSample 1 (tickLoss ModelType.fnn 0.1 (targetLossOf 0.1 0) 10 1
      (3.4225 - 3.75 * Real.exp (-0.25)) 0)).accuracy
      = round3 (1 - (0.8345 : ℝ)) := by rw [← hval]; rfl
  have hloss : (mkSample 1 (tickLoss ModelType.fnn 0.1 (targetLossOf 0.1 0) 10 1
      (3.4225 - 3.75 * Real.exp (-0.25)) 0)).loss
      = round3 (0.8345 : ℝ) := by rw [← hval]; rfl
  rw [hacc, hloss]
  have h1 : (1 : ℝ) - 0.8345 = 0.1655 := by norm_num
  have h2 : round3 (0.1655 : ℝ) = ((166 : ℤ) : ℝ) / 1000 :=
    round3_eq_of (by norm_num) (by norm_num)
  have h3 : round3 (0.8345 : ℝ) = ((835 : ℤ) : ℝ) / 1000 :=
    round3_eq_of (by norm_num) (by norm_num)
  have h4 : (1 : ℝ) - ((835 : ℤ) : ℝ) / 1000 = 0.165 := by norm_num
  have h5 : round3 (0.165 : ℝ) = ((165 : ℤ) : ℝ) / 1000 :=
    round3_eq_of (by norm_num) (by norm_num)
  rw [h1, h2, h3, h4, h5]
  norm_num

/- ### Tie-free rounding: the amended C5 -/

theorem round_neg_eq {y : ℝ} (h : Int.fract y ≠ 1 / 2) :
    round (-y) = -round y := by
  rw [round_eq, round_eq]
  have h1 : ((⌊y + 1 / 2⌋ : ℤ) : ℝ) ≤ y + 1 / 2 := Int.floor_le _
  have h2 : y + 1 / 2 < (⌊y + 1 / 2⌋ : ℤ) + 1 := Int.lt_floor_add_one _
  have h3 : ((⌊y + 1 / 2⌋ : ℤ) : ℝ) ≠ y + 1 / 2 := by
    intro heq
    apply h
    have hy : y = ((⌊y + 1 / 2⌋ : ℤ) : ℝ) - 1 / 2 := by linarith
    rw [hy]
    unfold Int.fract
    have hfl : ⌊((⌊y + 1 / 2⌋ : ℤ) : ℝ) - 1 / 2⌋ = ⌊y + 1 / 2⌋ - 1 := by
      refine Int.floor_eq_iff.mpr ⟨?_, ?_⟩
      · push_cast
        linarith
      · push_cast
        linarith
    rw [hfl]
    push_cast
    ring
  have h1s : ((⌊y + 1 / 2⌋ : ℤ) : ℝ) < y + 1 / 2 := lt_of_le_of_ne h1 h3
  refine Int.floor_eq_iff.mpr ⟨?_, ?_⟩
  · push_cast
    linarith
  · push_cast
    linarith

theorem round3_int_div (k : ℤ) : round3 ((k : ℝ) / 1000) = (k : ℝ) / 1000 := by
  unfold round3
  rw [div_mul_cancel₀ _ (by norm_num : (1000 : ℝ) ≠ 0), round_intCast]

/-- Rounding commutes with reflection in 1 away from ties: if the scaled
value `x * 1000` does not sit exactly between two integers, then
`round3 (1 - x) = round3 (1 - round3 x)`. -/
theorem round3_one_sub {x : ℝ} (h : Int.fract (x * 1000) ≠ 1 / 2) :
    round3 (1 - x) = round3 (1 - round3 x) := by
  have hA : 1 - round3 x = ((1000 - round (x * 1000) : ℤ) : ℝ) / 1000 := by
    unfold round3
    push_cast
    ring
  rw [hA, round3_int_div]
  unfold round3
  have hr : round ((1 - x) * 1000) = 1000 - round (x * 1000) := by
    have h1 : (1 - x) * 1000 = -(x * 1000) + ((1000 : ℤ) : ℝ) := by
      push_cast
      ring
    rw [h1, round_add_int, round_neg_eq h]
    ring
  rw [hr]

/-- C5 amended: the accuracy the source records is `round(1 - L, 3)` for the
tick's unrounded loss `L`; away from rounding ties (`1000·L` not exactly a
half-integer) this coincides with `round(1 - recordedLoss, 3)`, so the
claimed identity holds for every non-tie sample. -/
theorem sample_accuracy_of_no_tie (m : ModelType) (lr tL : ℝ) (N e : ℕ) (rN rI : ℝ)
    (h : Int.fract (tickLoss m lr tL N e rN rI * 1000) ≠ 1 / 2) :
    (mkSample e (tickLoss m lr tL N e rN rI)).accuracy
      = round3 (1 - (mkSample e (tickLoss m lr tL N e rN rI)).loss) := by
  have hacc : (mkSample e (tickLoss m lr tL N e rN rI)).accuracy
      = round3 (1 - tickLoss m lr tL N e rN rI) := rfl
  have hloss : (mkSample e (tickLoss m lr tL N e rN rI)).loss
      = round3 (tickLoss m lr tL N e rN rI) := rfl
  rw [hacc, hloss, round3_one_sub h]

/-- Witness for the amended C5: with noise draw `3.25 - 3.75 * exp(-1/4)`
the tick loss is exactly 0.8, not a tie, and the identity holds. -/
theorem sample_accuracy_of_no_tie_witness :
    Int.fract (tickLoss ModelType.fnn 0.1 (targetLossOf 0.1 0) 10 1
        (3.25 - 3.75 * Real.exp (-0.25)) 0 * 1000) ≠ 1 / 2 ∧
    (mkSample 1 (tickLoss ModelType.fnn 0.1 (targetLossOf 0.1 0) 10 1
        (3.25 - 3.75 * Real.exp (-0.25)) 0)).accuracy
      = round3 (1 - (mkSample 1 (tickLoss ModelType.fnn 0.1 (targetLossOf 0.1 0) 10 1
        (3.25 - 3.75 * Real.exp (-0.25)) 0)).loss) := by
  have hval : tickLoss ModelType.fnn 0.1 (targetLossOf 0.1 0) 10 1
      (3.25 - 3.75 * Real.exp (-0.25)) 0 = 0.8 :=
    tickLoss_fnn_value _ _ (by ring) (by norm_num) (by norm_num)
  have hfr : Int.fract (tickLoss ModelType.fnn 0.1 (targetLossOf 0.1 0) 10 1
      (3.25 - 3.75 * Real.exp (-0.25)) 0 * 1000) ≠ 1 / 2 := by
    rw [hval]
    have h800 : (0.8 : ℝ) * 1000 = ((800 : ℤ) : ℝ) := by norm_num
    rw [h800, Int.fract_intCast]
    norm_num
  exact ⟨hfr, sample_accuracy_of_no_tie ModelType.fnn 0.1 (targetLossOf 0.1 0) 10 1
    (3.25 - 3.75 * Real.exp (-0.25)) 0 hfr⟩

/- ### The guided stepper (claim C3) -/

/-- The RNN diagram view variant (`'folded' | 'unfolded'`). -/
inductive ViewVariant
  | folded
  | unfolded
deriving DecidableEq

/-- One step descriptor (`StepInfo` in `src/types.ts`). -/
structure StepInfo where
  title : String
  desc : String
  formula : Option String := none
  formulaDesc : Option String := none
  highlightIds : List String
  view : Option ViewVariant := none
  fadeIds : Option (List String) := none

/-- The step catalog `STEPS_DATA` from the app shell: four steps per
architecture. -/
def STEPS_DATA : ModelType → List StepInfo
  | ModelType.fnn =>
    [{ title := "FNN 架构预览"
       desc := "全连接神经网络(Fully Connected Neural Network)：数据单向流动，层与层之间所有节点相互连接。适用于简单的模式匹配，但在处理长序列文本（如长对联）时缺乏上下文记忆。"
       formula := some ("y = f(x; θ)")
       formulaDesc := some ("输入 x 经过参数 θ 变换得到输出 y")
       highlightIds := [] },
     { title := "输入层激活 (Input)"
       desc := "数据（上联的字词向量）从左侧 Input Layer 进入网络。每个节点代表一个特征。"
       formula := some ("x = [x₁, x₂, ..., xₙ]")
       formulaDesc := some ("将文字转换为计算机能理解的数字向量")
       highlightIds := ["fnn-node-l0"] },
     { title := "前向传播 (Hidden)"
       desc := "数据经过中间的 Hidden Layers。全连接层提取复杂的语义特征，计算加权和并经过激活函数。"
       formula := some ("h = σ(W·x + b)")
       formulaDesc := some ("权重 × 输入 + 偏置，再通过激活函数非线性变换")
       highlightIds := ["fnn-node-l1", "fnn-node-l2", "fnn-link-l0", "fnn-link-l1"] },
     { title := "输出结果 (Output)"
       desc := "最终到达右侧 Output Layer，生成预测的下联字词概率分布。"
       formula := some ("y = softmax(V·h + c)")
       formulaDesc := some ("将数值转化为下联每个字的预测概率")
       highlightIds := ["fnn-node-l3", "fnn-link-l2"] }]
  | ModelType.rnn =>
    [{ title := "RNN 折叠视图 (Loop)"
       desc := "RNN (Recurrent Neural Network) 的核心是自循环：单元 A 把当前的输出传给下一刻的自己。当前时刻的状态 h_t 由当前输入 x_t 和上一时刻状态 h_{t-1} 共同决定。"
       view := some ViewVariant.folded
       formula := some ("hₜ = tanh(Wₕ·hₜ₋₁ + Wₓ·xₜ)")
       formulaDesc := some ("今日记忆 = tanh(昨日记忆 + 今日输入)")
       highlightIds := ["path-rf-loop", "rnn-f-cell"] },
     { title := "RNN 展开视图 (Time)"
       desc := "按时间展开后，RNN 变成了一个链式结构，适合处理像对联这样的序列文字。"
       view := some ViewVariant.unfolded
       formula := some ("Cost = Σ Loss(yₜ, ŷₜ)")
       formulaDesc := some ("总误差是每一个时间步预测误差的累加")
       highlightIds := [] },
     { title := "记忆功能 (Memory)"
       desc := "高亮的横向箭头代表记忆（Hidden State）：上联第一个字的信息可以一路传到最后。"
       view := some ViewVariant.unfolded
       formula := some ("h₀ → h₁ → h₂ → ... → hₜ")
       formulaDesc := some ("记忆状态沿着时间轴一步步向后传递")
       highlightIds := ["rnn-mem-arrow"] },
     { title := "问题：梯度消失"
       desc := "当链条太长，反向传播时梯度在远处（左侧）会趋近于 0，导致网络‘忘记’开头的文字，无法做到前后呼应。"
       view := some ViewVariant.unfolded
       formula := some ("∂E/∂W ≈ 0 (Gradient Vanishing)")
       formulaDesc := some ("误差传不回去，导致前面的参数无法有效更新（即忘记了开头）")
       highlightIds := ["rnn-step-4"]
       fadeIds := some (["rnn-step-0", "rnn-step-1", "rnn-step-2"]) }]
  | ModelType.lstm =>
    [{ title := "LSTM 解决方案"
       desc := "LSTM (Long Short-Term Memory) 引入了顶部的‘细胞状态’(Cell State) C_t 高速路，这就像传送带，让信息能无损流动，解决梯度消失。"
       formula := some ("Cₜ = fₜ·Cₜ₋₁ + iₜ·C̃ₜ")
       formulaDesc := some ("新状态 = 旧状态保留部分 + 新输入添加部分")
       highlightIds := ["lstm-path-c"] },
     { title := "1. 遗忘门 (Forget)"
       desc := "Sigmoid 层输出 0 到 1 的数值，决定‘丢弃’多少旧信息。例如：如果上联语境变了，就忘记之前的临时主语。"
       formula := some ("fₜ = σ(W_f · [hₜ₋₁, xₜ] + b_f)")
       formulaDesc := some ("输出 0~1 的系数，0代表完全遗忘，1代表完全保留")
       highlightIds := ["lstm-forget-gate", "lstm-forget-path"] },
     { title := "2. 输入门 (Input)"
       desc := "Sigmoid 决定更新哪些值，Tanh 创建新的候选值向量。两者结合决定‘添加’多少新信息到细胞状态。"
       formula := some ("iₜ = σ(...) , C̃ₜ = tanh(...)")
       formulaDesc := some ("决定哪些新信息是重要的，并加入到长期记忆中")
       highlightIds := ["lstm-input-gate", "lstm-input-path"] },
     { title := "3. 输出门 (Output)"
       desc := "基于细胞状态和当前输入，计算最终的隐藏状态 h(t)，用于预测下一个字。"
       formula := some ("hₜ = oₜ · tanh(Cₜ)")
       formulaDesc := some ("基于当前的长期记忆，决定这一刻输出什么内容")
       highlightIds := ["lstm-output-gate", "lstm-output-path", "lstm-path-out"] }]

/-- The app-level stepper state: the active architecture tab and the shared
step index (`useState` in the app shell). -/
structure AppState where
  activeTab : ModelType
  stepIndex : ℕ
deriving DecidableEq

/-- `handleTabChange`: select an architecture and reset the step index to 0. -/
def handleTabChange (t : ModelType) (s : AppState) : AppState :=
  { activeTab := t, stepIndex := 0 }

/-- The 上一步 button: disabled at index 0 (no-op), otherwise
`setStepIndex(stepIndex - 1)`. -/
def clickPrev (s : AppState) : AppState :=
  if s.stepIndex = 0 then s else { s with stepIndex := s.stepIndex - 1 }

/-- The 下一步 button: disabled at the last index (no-op), otherwise
`setStepIndex(stepIndex + 1)`. -/
def clickNext (s : AppState) : AppState :=
  if s.stepIndex = (STEPS_DATA s.activeTab).length - 1 then s
  else { s with stepIndex := s.stepIndex + 1 }

/-- A user operation on the stepper. -/
inductive StepperOp
  | select (t : ModelType)
  | forward
  | back

/-- Apply one stepper operation. -/
def applyOp : StepperOp → AppState → AppState
  | StepperOp.select t, s => handleTabChange t s
  | StepperOp.forward, s => clickNext s
  | StepperOp.back, s => clickPrev s

/-- The initial stepper state: `useState<ModelType>('fnn')`, `useState(0)`. -/
def initialApp : AppState := { activeTab := ModelType.fnn, stepIndex := 0 }

/-- Run a finite sequence of stepper operations from the initial state. -/
def runOps (ops : List StepperOp) : AppState :=
  ops.foldl (fun s op => applyOp op s) initialApp

/-- Every architecture's catalog is non-empty (it has exactly four steps). -/
theorem STEPS_DATA_length (t : ModelType) : (STEPS_DATA t).length = 4 := by
  cases t <;> rfl

/-- The in-bounds invariant is preserved by every operation. -/
theorem applyOp_preserves (op : StepperOp) (s : AppState)
    (hs : s.stepIndex < (STEPS_DATA s.activeTab).length) :
    (applyOp op s).stepIndex < (STEPS_DATA (applyOp op s).activeTab).length := by
  cases op with
  | select t =>
    show (0 : ℕ) < (STEPS_DATA t).length
    rw [STEPS_DATA_length]
    norm_num
  | forward =>
    show (clickNext s).stepIndex < (STEPS_DATA (clickNext s).activeTab).length
    unfold clickNext
    by_cases h : s.stepIndex = (STEPS_DATA s.activeTab).length - 1
    · rw [if_pos h]
      exact hs
    · rw [if_neg h]
      have h4 := STEPS_DATA_length s.activeTab
      show s.stepIndex + 1 < (STEPS_DATA s.activeTab).length
      omega
  | back =>
    show (clickPrev s).stepIndex < (STEPS_DATA (clickPrev s).activeTab).length
    unfold clickPrev
    by_cases h : s.stepIndex = 0
    · rw [if_pos h]
      exact hs
    · rw [if_neg h]
      show s.stepIndex - 1 < (STEPS_DATA s.activeTab).length
      omega

/-- The in-bounds invariant holds along any fold of operations. -/
theorem runFrom_inbounds (ops : List StepperOp) (s : AppState)
    (hs : s.stepIndex < (STEPS_DATA s.activeTab).length) :
    (ops.foldl (fun u op => applyOp op u) s).stepIndex
      < (STEPS_DATA (ops.foldl (fun u op => applyOp op u) s).activeTab).length := by
  induction ops generalizing s with
  | nil => exact hs
  | cons op rest ih => exact ih (applyOp op s) (applyOp_preserves op s hs)

/-- C3: after any finite sequence of tab selections and forward/back clicks
from the initial state, the step index is in bounds for the active
architecture's catalog; the forward click at the last index and the back
click at index 0 are no-ops (the buttons are disabled there); and selecting
an architecture always resets the index to 0. -/
theorem stepper_invariant (ops : List StepperOp) :
    (runOps ops).stepIndex < (STEPS_DATA (runOps ops).activeTab).length ∧
    (∀ s : AppState, s.stepIndex = (STEPS_DATA s.activeTab).length - 1 →
      clickNext s = s) ∧
    (∀ s : AppState, s.stepIndex = 0 → clickPrev s = s) ∧
    (∀ (t : ModelType) (s : AppState), (handleTabChange t s).stepIndex = 0) := by
  refine ⟨?_, ?_, ?_, ?_⟩
  · exact runFrom_inbounds ops initialApp
      (by show (0 : ℕ) < (STEPS_DATA ModelType.fnn).length; rw [STEPS_DATA_length]; norm_num)
  · intro s h
    unfold clickNext
    rw [if_pos h]
  · intro s h
    unfold clickPrev
    rw [if_pos h]
  · intro t s
    rfl

/-- Witness for C3: one forward click, plus the three boundary facts at
concrete states. -/
theorem stepper_invariant_witness :
    (runOps [StepperOp.forward]).stepIndex
      < (STEPS_DATA (runOps [StepperOp.forward]).activeTab).length ∧
    ((AppState.mk ModelType.fnn 3).stepIndex
        = (STEPS_DATA (AppState.mk ModelType.fnn 3).activeTab).length - 1 ∧
      clickNext (AppState.mk ModelType.fnn 3) = AppState.mk ModelType.fnn 3) ∧
    ((AppState.mk ModelType.rnn 0).stepIndex = 0 ∧
      clickPrev (AppState.mk ModelType.rnn 0) = AppState.mk ModelType.rnn 0) ∧
    (handleTabChange ModelType.lstm (AppState.mk ModelType.fnn 2)).stepIndex = 0 := by
  obtain ⟨h1, h2, h3, h4⟩ := stepper_invariant [StepperOp.forward]
  have hb : (AppState.mk ModelType.fnn 3).stepIndex
      = (STEPS_DATA (AppState.mk ModelType.fnn 3).activeTab).length - 1 := by
    rw [STEPS_DATA_length]
  exact ⟨h1, ⟨hb, h2 _ hb⟩, ⟨rfl, h3 _ rfl⟩, h4 ModelType.lstm (AppState.mk ModelType.fnn 2)⟩

/- ### The training lab state machine (claims C2, C4, C8, C9) -/

/-- A run's supply of `Math.random()` draws: one target-loss draw at start,
then one noise draw and one instability draw per epoch. -/
structure Draws where
  target : ℝ
  noise : ℕ → ℝ
  instab : ℕ → ℝ

/-- The closure state of a scheduled `trainStep` invocation: the parameter
snapshot taken by `startTraining` plus the number of epochs already run. -/
structure RunCtx where
  model : ModelType
  lr : ℝ
  tL : ℝ
  total : ℕ
  d : Draws
  done : ℕ

/-- The training status (`'idle' | 'training' | 'completed'`). -/
inductive TrainingStatus
  | idle
  | training
  | completed
deriving DecidableEq

/-- The `TrainingLab` component state. `pending` models the timeout handle
`trainingRef` together with the closure it would invoke: `some c` means a
tick of the run described by `c` is scheduled, `none` that no tick is
pending. `emitted` is the (ghost) log of every sample ever emitted, in
order; `metrics` is the capped chart history. -/
structure LabState where
  status : TrainingStatus
  params : TrainingParams
  metrics : List MetricSample
  progress : ℝ
  finalLoss : ℝ
  testResult : Option CoupletResult
  pending : Option RunCtx
  emitted : List MetricSample

/-- The initial component state (`useState` initialisers). -/
def initialLab : LabState :=
  { status := TrainingStatus.idle
    params := { epochs := 50, learningRate := 0.01 }
    metrics := []
    progress := 0
    finalLoss := 1.0
    testResult := none
    pending := none
    emitted := [] }

/-- `resetLab`: back to idle, clear the history, progress, test result and
final loss, and cancel any pending tick (`clearTimeout(trainingRef.current)`).
The ghost emission log is untouched: it records what was already emitted. -/
def resetLab (s : LabState) : LabState :=
  { s with status := TrainingStatus.idle
           metrics := []
           progress := 0
           testResult := none
           finalLoss := 1.0
           pending := none }

/-- `handleParamChange`: store the new parameters and, if the previous run
had completed, fall back to idle and clear the displayed result. -/
def handleParamChange (p : TrainingParams) (s : LabState) : LabState :=
  if s.status = TrainingStatus.completed then
    { s with params := p, status := TrainingStatus.idle, testResult := none }
  else
    { s with params := p }

/-- `startTraining`: snapshot the parameters (and the target-loss draw) into
a fresh run closure, clear the history and result, and set status to
training. The source invokes the first `trainStep` synchronously; that is
modelled as the first tick being immediately pending. -/
noncomputable def startTraining (m : ModelType) (d : Draws) (s : LabState) : LabState :=
  { s with status := TrainingStatus.training
           metrics := []
           testResult := none
           progress := 0
           pending := some
             { model := m
               lr := s.params.learningRate
               tL := targetLossOf s.params.learningRate d.target
               total := s.params.epochs
               d := d
               done := 0 } }

/-- One `trainStep` tick of the run `c`: emit the sample for epoch
`c.done + 1`, cap the history, update progress, and either schedule the next
tick or complete, recording the unrounded tick loss as `finalLoss`. -/
noncomputable def execTrainStep (c : RunCtx) (s : LabState) : LabState :=
  let e := c.done + 1
  let L := tickLoss c.model c.lr c.tL c.total e (c.d.noise e) (c.d.instab e)
  let samp := mkSample e L
  let s1 : LabState :=
    { s with metrics := pushCapped s.metrics samp
             emitted := s.emitted ++ [samp]
             progress := (e : ℝ) / (c.total : ℝ) * 100 }
  if e < c.total then
    { s1 with pending := some { c with done := e } }
  else
    { s1 with pending := none
              status := TrainingStatus.completed
              finalLoss := L }

/-- Whether the 生成下联 button is enabled: generation is permitted only in
the completed state. -/
def generationAllowed (s : LabState) : Prop := s.status = TrainingStatus.completed

/-- One step of the lab: a pending tick fires, or the user resets, changes a
parameter, or starts a run (parameter controls and the start button are
disabled while training). -/
inductive LabStep : LabState → LabState → Prop
  | fire (s : LabState) (c : RunCtx) (h : s.pending = some c) :
      LabStep s (execTrainStep c s)
  | reset (s : LabState) : LabStep s (resetLab s)
  | param (s : LabState) (p : TrainingParams) (h : s.status ≠ TrainingStatus.training) :
      LabStep s (handleParamChange p s)
  | start (s : LabState) (m : ModelType) (d : Draws)
      (h : s.status ≠ TrainingStatus.training) :
      LabStep s (startTraining m d s)

/-- A lab step that is not the start of a new run (used for C9: after a
reset, anything except an explicit restart). -/
inductive NoStartStep : LabState → LabState → Prop
  | fire (s : LabState) (c : RunCtx) (h : s.pending = some c) :
      NoStartStep s (execTrainStep c s)
  | reset (s : LabState) : NoStartStep s (resetLab s)
  | param (s : LabState) (p : TrainingParams)
      (h : s.status ≠ TrainingStatus.training) :
      NoStartStep s (handleParamChange p s)

/-- A lab step that is not the completing tick of a run (used for C4:
anything short of a new run running to completion). -/
inductive NonCompletingStep : LabState → LabState → Prop
  | fire (s : LabState) (c : RunCtx) (h : s.pending = some c)
      (hlt : c.done + 1 < c.total) : NonCompletingStep s (execTrainStep c s)
  | reset (s : LabState) : NonCompletingStep s (resetLab s)
  | param (s : LabState) (p : TrainingParams)
      (h : s.status ≠ TrainingStatus.training) :
      NonCompletingStep s (handleParamChange p s)
  | start (s : LabState) (m : ModelType) (d : Draws)
      (h : s.status ≠ TrainingStatus.training) :
      NonCompletingStep s (startTraining m d s)

/- ### Claim C9: reset cancels the run -/

/-- C9: calling `resetLab` cancels the pending tick, returns the status to
idle and empties the history; and in every state reachable from there
without starting a new run — in particular after the delay at which the
cancelled run's next tick would have fired — no tick is pending and the
emission log is unchanged, so the cancelled run never emits another
sample. -/
theorem reset_cancels_run (s t : LabState)
    (ht : Relation.ReflTransGen NoStartStep (resetLab s) t) :
    (resetLab s).status = TrainingStatus.idle ∧
    (resetLab s).metrics = [] ∧
    (resetLab s).pending = none ∧
    t.pending = none ∧
    t.emitted = (resetLab s).emitted := by
  refine ⟨rfl, rfl, rfl, ?_⟩
  have key : ∀ u v : LabState, NoStartStep u v → u.pending = none →
      u.emitted = s.emitted → v.pending = none ∧ v.emitted = s.emitted := by
    intro u v huv hp he
    cases huv with
    | fire c h => rw [hp] at h; exact absurd h (by simp)
    | reset => exact ⟨rfl, he⟩
    | param q h =>
      unfold handleParamChange
      by_cases hc : u.status = TrainingStatus.completed
      · rw [if_pos hc]
        exact ⟨hp, he⟩
      · rw [if_neg hc]
        exact ⟨hp, he⟩
  have inv : t.pending = none ∧ t.emitted = s.emitted := by
    induction ht with
    | refl => exact ⟨rfl, rfl⟩
    | tail hab hbc ih => exact key _ _ hbc ih.1 ih.2
  exact ⟨inv.1, inv.2⟩

/-- Witness for C9: resetting the initial state, with the empty continuation. -/
theorem reset_cancels_run_witness :
    (resetLab initialLab).status = TrainingStatus.idle ∧
    (resetLab initialLab).metrics = [] ∧
    (resetLab initialLab).pending = none ∧
    (resetLab initialLab).pending = none ∧
    (resetLab initialLab).emitted = (resetLab initialLab).emitted :=
  reset_cancels_run initialLab (resetLab initialLab) Relation.ReflTransGen.refl

/- ### Claim C4: parameter change invalidates a completed run -/

/-- C4: changing any training parameter while the status is completed moves
the status back to idle and clears the displayed result (the recorded
quality signal can no longer be consumed, since generation is gated on the
completed status); and in every state reachable from there without some
run's completing tick, generation remains forbidden. Only a completing
tick — which overwrites `finalLoss` with the new run's value — can re-enable
it. -/
theorem paramChange_invalidates (s : LabState) (p : TrainingParams) (t : LabState)
    (hs : s.status = TrainingStatus.completed)
    (ht : Relation.ReflTransGen NonCompletingStep (handleParamChange p s) t) :
    (handleParamChange p s).status = TrainingStatus.idle ∧
    (handleParamChange p s).testResult = none ∧
    ¬ generationAllowed (handleParamChange p s) ∧
    ¬ generationAllowed t := by
  have hbase : (handleParamChange p s).status = TrainingStatus.idle ∧
      (handleParamChange p s).testResult = none := by
    unfold handleParamChange
    rw [if_pos hs]
    exact ⟨rfl, rfl⟩
  have key : ∀ u v : LabState, NonCompletingStep u v →
      u.status ≠ TrainingStatus.completed → v.status ≠ TrainingStatus.completed := by
    intro u v huv hu
    cases huv with
    | fire c h hlt =>
      unfold execTrainStep
      rw [if_pos hlt]
      exact hu
    | reset => simp [resetLab]
    | param q h =>
      unfold handleParamChange
      rw [if_neg hu]
      exact hu
    | start m d h => simp [startTraining]
  have inv : t.status ≠ TrainingStatus.completed := by
    induction ht with
    | refl => rw [hbase.1]; simp
    | tail hab hbc ih => exact key _ _ hbc ih
  refine ⟨hbase.1, hbase.2, ?_, inv⟩
  unfold generationAllowed
  rw [hbase.1]
  simp

/-- Witness for C4: a concrete completed state whose parameters change. -/
theorem paramChange_invalidates_witness :
    (handleParamChange (TrainingParams.mk 20 0.1)
        { initialLab with status := TrainingStatus.completed }).status
      = TrainingStatus.idle ∧
    (handleParamChange (TrainingParams.mk 20 0.1)
        { initialLab with status := TrainingStatus.completed }).testResult = none ∧
    ¬ generationAllowed (handleParamChange (TrainingParams.mk 20 0.1)
        { initialLab with status := TrainingStatus.completed }) ∧
    ¬ generationAllowed (handleParamChange (TrainingParams.mk 20 0.1)
        { initialLab with status := TrainingStatus.completed }) :=
  paramChange_invalidates { initialLab with status := TrainingStatus.completed }
    (TrainingParams.mk 20 0.1) _ rfl Relation.ReflTransGen.refl

/- ### Running a training to completion (claims C2, C8) -/

/-- The sample emitted at epoch `e` of a run with snapshot
`(m, lr, tL, N)` and draw supply `d`. -/
noncomputable def runSample (m : ModelType) (lr tL : ℝ) (N : ℕ) (d : Draws)
    (e : ℕ) : MetricSample :=
  mkSample e (tickLoss m lr tL N e (d.noise e) (d.instab e))

/-- The first `k` samples such a run emits, in order (epochs `1..k`). -/
noncomputable def runTrace (m : ModelType) (lr tL : ℝ) (N : ℕ) (d : Draws)
    (k : ℕ) : List MetricSample :=
  (List.range k).map (fun i => runSample m lr tL N d (i + 1))

/-- The last (at most) 50 entries of a list: what the capped history keeps. -/
def trimTo50 (E : List MetricSample) : List MetricSample := E.drop (E.length - 50)

/-- The lab state after `startTraining` and then `k` fired ticks (a tick
only fires while one is pending). -/
noncomputable def runStates (s : LabState) (m : ModelType) (d : Draws) : ℕ → LabState
  | 0 => startTraining m d s
  | k + 1 =>
    match (runStates s m d k).pending with
    | some c => execTrainStep c (runStates s m d k)
    | none => runStates s m d k

theorem execTrainStep_emitted (c : RunCtx) (u : LabState) :
    (execTrainStep c u).emitted = u.emitted ++
      [mkSample (c.done + 1) (tickLoss c.model c.lr c.tL c.total (c.done + 1)
        (c.d.noise (c.done + 1)) (c.d.instab (c.done + 1)))] := by
  simp only [execTrainStep]
  split <;> rfl

theorem execTrainStep_metrics (c : RunCtx) (u : LabState) :
    (execTrainStep c u).metrics = pushCapped u.metrics
      (mkSample (c.done + 1) (tickLoss c.model c.lr c.tL c.total (c.done + 1)
        (c.d.noise (c.done + 1)) (c.d.instab (c.done + 1)))) := by
  simp only [execTrainStep]
  split <;> rfl

theorem execTrainStep_pending_of_lt (c : RunCtx) (u : LabState)
    (h : c.done + 1 < c.total) :
    (execTrainStep c u).pending = some { c with done := c.done + 1 } := by
  simp only [execTrainStep]
  rw [if_pos h]

theorem execTrainStep_status_of_lt (c : RunCtx) (u : LabState)
    (h : c.done + 1 < c.total) :
    (execTrainStep c u).status = u.status := by
  simp only [execTrainStep]
  rw [if_pos h]

theorem execTrainStep_pending_of_last (c : RunCtx) (u : LabState)
    (h : ¬ c.done + 1 < c.total) :
    (execTrainStep c u).pending = none := by
  simp only [execTrainStep]
  rw [if_neg h]

theorem execTrainStep_status_of_last (c : RunCtx) (u : LabState)
    (h : ¬ c.done + 1 < c.total) :
    (execTrainStep c u).status = TrainingStatus.completed := by
  simp only [execTrainStep]
  rw [if_neg h]

theorem execTrainStep_finalLoss_of_last (c : RunCtx) (u : LabState)
    (h : ¬ c.done + 1 < c.total) :
    (execTrainStep c u).finalLoss = tickLoss c.model c.lr c.tL c.total
      (c.done + 1) (c.d.noise (c.done + 1)) (c.d.instab (c.done + 1)) := by
  simp only [execTrainStep]
  rw [if_neg h]

/-- Appending through the 50-cap: pushing one sample onto the kept suffix of
`E` yields the kept suffix of `E ++ [x]` — the history is always the most
recent samples. -/
theorem pushCapped_trim (E : List MetricSample) (x : MetricSample) :
    pushCapped (trimTo50 E) x = trimTo50 (E ++ [x]) := by
  simp only [pushCapped, trimTo50]
  by_cases h : E.length < 50
  · have h0 : E.length - 50 = 0 := by omega
    rw [h0, List.drop_zero]
    have hc : ¬ (E ++ [x]).length > 50 := by
      simp only [List.length_append, List.length_singleton]
      omega
    rw [if_neg hc]
    have h1 : (E ++ [x]).length - 50 = 0 := by
      simp only [List.length_append, List.length_singleton]
      omega
    rw [h1, List.drop_zero]
  · have hlen : (E.drop (E.length - 50)).length = 50 := by
      rw [List.length_drop]
      omega
    have hc : (E.drop (E.length - 50) ++ [x]).length > 50 := by
      simp only [List.length_append, List.length_singleton, hlen]
      omega
    rw [if_pos hc]
    have h2 : (E.drop (E.length - 50) ++ [x]).length - 50 = 1 := by
      simp only [List.length_append, List.length_singleton, hlen]
    rw [h2,
      List.drop_append_of_le_length (show 1 ≤ (E.drop (E.length - 50)).length by omega),
      List.drop_drop,
      List.drop_append_of_le_length
        (show (E ++ [x]).length - 50 ≤ E.length by
          simp only [List.length_append, List.length_singleton]; omega)]
    have h3 : (E.length - 50) + 1 = (E ++ [x]).length - 50 := by
      simp only [List.length_append, List.length_singleton]
      omega
    rw [h3]

theorem runTrace_succ (m : ModelType) (lr tL : ℝ) (N : ℕ) (d : Draws) (k : ℕ) :
    runTrace m lr tL N d (k + 1)
      = runTrace m lr tL N d k ++ [runSample m lr tL N d (k + 1)] := by
  simp only [runTrace]
  rw [List.range_succ, List.map_append, List.map_singleton]

/-- The state of a run after `k ≤ epochCount` ticks: the emission log has
grown by exactly the samples for epochs `1..k`, the history is the kept
suffix of those samples, a tick for epoch `k+1` is pending and the status is
`training` iff `k < epochCount`, and at `k = epochCount` the status is
`completed` with `finalLoss` the unrounded loss of the last tick. -/
theorem runStates_spec (s : LabState) (m : ModelType) (d : Draws)
    (hN : 1 ≤ s.params.epochs) :
    ∀ k, k ≤ s.params.epochs →
      (runStates s m d k).emitted = s.emitted ++
        runTrace m s.params.learningRate
          (targetLossOf s.params.learningRate d.target) s.params.epochs d k ∧
      (runStates s m d k).metrics = trimTo50
        (runTrace m s.params.learningRate
          (targetLossOf s.params.learningRate d.target) s.params.epochs d k) ∧
      (runStates s m d k).pending =
        (if k < s.params.epochs then
          some (RunCtx.mk m s.params.learningRate
            (targetLossOf s.params.learningRate d.target) s.params.epochs d k)
         else none) ∧
      (runStates s m d k).status =
        (if k < s.params.epochs then TrainingStatus.training
         else TrainingStatus.completed) ∧
      (k = s.params.epochs → (runStates s m d k).finalLoss =
        tickLoss m s.params.learningRate
          (targetLossOf s.params.learningRate d.target) s.params.epochs
          s.params.epochs (d.noise s.params.epochs) (d.instab s.params.epochs)) := by
  intro k
  induction k with
  | zero =>
    intro hk
    have h0N : 0 < s.params.epochs := hN
    refine ⟨?_, ?_, ?_, ?_, ?_⟩
    · show (startTraining m d s).emitted = _
      simp [startTraining, runTrace]
    · show (startTraining m d s).metrics = _
      simp [startTraining, runTrace, trimTo50]
    · show (startTraining m d s).pending = _
      rw [if_pos h0N]
      rfl
    · show (startTraining m d s).status = _
      rw [if_pos h0N]
      rfl
    · intro h
      omega
  | succ k ih =>
    intro hk
    have hk' : k ≤ s.params.epochs := by omega
    have hklt : k < s.params.epochs := by omega
    obtain ⟨ihe, ihm, ihp, ihs, ihf⟩ := ih hk'
    rw [if_pos hklt] at ihp ihs
    have hstep : runStates s m d (k + 1) = execTrainStep
        (RunCtx.mk m s.params.learningRate
          (targetLossOf s.params.learningRate d.target) s.params.epochs d k)
        (runStates s m d k) := by
      show (match (runStates s m d k).pending with
            | some c => execTrainStep c (runStates s m d k)
            | none => runStates s m d k) = _
      rw [ihp]
    refine ⟨?_, ?_, ?_, ?_, ?_⟩
    · rw [hstep, execTrainStep_emitted, ihe, runTrace_succ, List.append_assoc]
      rfl
    · rw [hstep, execTrainStep_metrics, ihm, runTrace_succ]
      exact pushCapped_trim _ _
    · by_cases hlast : k + 1 < s.params.epochs
      · rw [hstep, execTrainStep_pending_of_lt _ _ hlast, if_pos hlast]
      · rw [hstep, execTrainStep_pending_of_last _ _ hlast, if_neg hlast]
    · by_cases hlast : k + 1 < s.params.epochs
      · rw [hstep, execTrainStep_status_of_lt _ _ hlast, if_pos hlast, ihs]
      · rw [hstep, execTrainStep_status_of_last _ _ hlast, if_neg hlast]
    · intro hEq
      have hlast : ¬ k + 1 < s.params.epochs := by omega
      rw [hstep, execTrainStep_finalLoss_of_last _ _ hlast]
      rw [show k + 1 = s.params.epochs from hEq]

/-- C2: started on a fresh state with valid parameters and with every
scheduled tick allowed to fire, the run emits exactly `epochCount` samples
whose epochs are strictly increasing `1..epochCount`; the status is still
`training` after every earlier tick, becomes `completed` only with the tick
that emits epoch `epochCount`, and `finalLoss` records that last tick's
unrounded loss. -/
theorem training_run_completes (s : LabState) (m : ModelType) (d : Draws)
    (hv : validParams s.params) (hbase : s.emitted = []) :
    ((runStates s m d s.params.epochs).emitted.map MetricSample.epoch
        = (List.range s.params.epochs).map (fun i => i + 1)) ∧
    (runStates s m d s.params.epochs).emitted.length = s.params.epochs ∧
    List.Chain' (fun a b => a < b)
      ((runStates s m d s.params.epochs).emitted.map MetricSample.epoch) ∧
    (∀ k, k < s.params.epochs →
      (runStates s m d k).status = TrainingStatus.training) ∧
    (runStates s m d s.params.epochs).status = TrainingStatus.completed ∧
    (runStates s m d s.params.epochs).finalLoss =
      tickLoss m s.params.learningRate
        (targetLossOf s.params.learningRate d.target) s.params.epochs
        s.params.epochs (d.noise s.params.epochs) (d.instab s.params.epochs) := by
  have hN : 1 ≤ s.params.epochs := by
    have h10 := hv.1
    omega
  obtain ⟨he, hm, hp, hs, hf⟩ := runStates_spec s m d hN s.params.epochs (le_refl _)
  rw [if_neg (lt_irrefl _)] at hp hs
  have hemap : (runStates s m d s.params.epochs).emitted.map MetricSample.epoch
      = (List.range s.params.epochs).map (fun i => i + 1) := by
    rw [he, hbase, List.nil_append]
    unfold runTrace
    rw [List.map_map]
    rfl
  have hlen : (runStates s m d s.params.epochs).emitted.length = s.params.epochs := by
    have hl := congrArg List.length hemap
    simpa using hl
  refine ⟨hemap, hlen, ?_, ?_, hs, hf rfl⟩
  · rw [hemap]
    refine List.chain'_iff_pairwise.mpr ?_
    exact (List.pairwise_lt_range s.params.epochs).map _ (fun a b hab => by omega)
  · intro k hk
    obtain ⟨-, -, -, hsk, -⟩ := runStates_spec s m d hN k (le_of_lt hk)
    rw [if_pos hk] at hsk
    exact hsk

/-- Witness for C2: the initial component state (50 epochs, learning rate
0.01), recurrent model, all draws 0. -/
theorem training_run_completes_witness :
    ((runStates initialLab ModelType.rnn (Draws.mk 0 (fun _ => 0) (fun _ => 0))
          initialLab.params.epochs).emitted.map MetricSample.epoch
        = (List.range initialLab.params.epochs).map (fun i => i + 1)) ∧
    (runStates initialLab ModelType.rnn (Draws.mk 0 (fun _ => 0) (fun _ => 0))
        initialLab.params.epochs).emitted.length = initialLab.params.epochs ∧
    List.Chain' (fun a b => a < b)
      ((runStates initialLab ModelType.rnn (Draws.mk 0 (fun _ => 0) (fun _ => 0))
          initialLab.params.epochs).emitted.map MetricSample.epoch) ∧
    (∀ k, k < initialLab.params.epochs →
      (runStates initialLab ModelType.rnn (Draws.mk 0 (fun _ => 0) (fun _ => 0))
          k).status = TrainingStatus.training) ∧
    (runStates initialLab ModelType.rnn (Draws.mk 0 (fun _ => 0) (fun _ => 0))
        initialLab.params.epochs).status = TrainingStatus.completed ∧
    (runStates initialLab ModelType.rnn (Draws.mk 0 (fun _ => 0) (fun _ => 0))
        initialLab.params.epochs).finalLoss =
      tickLoss ModelType.rnn initialLab.params.learningRate
        (targetLossOf initialLab.params.learningRate
          (Draws.mk 0 (fun _ => 0) (fun _ => 0)).target)
        initialLab.params.epochs initialLab.params.epochs
        ((Draws.mk 0 (fun _ => 0) (fun _ => 0)).noise initialLab.params.epochs)
        ((Draws.mk 0 (fun _ => 0) (fun _ => 0)).instab initialLab.params.epochs) :=
  training_run_completes initialLab ModelType.rnn
    (Draws.mk 0 (fun _ => 0) (fun _ => 0))
    ⟨by decide, by decide, Or.inr (Or.inl rfl)⟩ rfl

/-- C8: at every point of a run with any valid epoch count (and hence for
every epoch count up to 100), the chart history holds at most 50 samples,
and it is exactly the most recent emitted samples in order (the kept suffix
of the emission trace): when the cap is exceeded the oldest are evicted. -/
theorem history_capped (s : LabState) (m : ModelType) (d : Draws)
    (hv : validParams s.params) (k : ℕ) (hk : k ≤ s.params.epochs) :
    (runStates s m d k).metrics.length ≤ 50 ∧
    (runStates s m d k).metrics = trimTo50
      (runTrace m s.params.learningRate
        (targetLossOf s.params.learningRate d.target) s.params.epochs d k) := by
  have hN : 1 ≤ s.params.epochs := by
    have h10 := hv.1
    omega
  obtain ⟨-, hm, -, -, -⟩ := runStates_spec s m d hN k hk
  refine ⟨?_, hm⟩
  rw [hm]
  unfold trimTo50
  rw [List.length_drop]
  omega

/-- Witness for C8 after 50 of the 50 ticks of the initial parameters. -/
theorem history_capped_witness :
    (runStates initialLab ModelType.fnn (Draws.mk 0 (fun _ => 0) (fun _ => 0))
        50).metrics.length ≤ 50 ∧
    (runStates initialLab ModelType.fnn (Draws.mk 0 (fun _ => 0) (fun _ => 0))
        50).metrics = trimTo50
      (runTrace ModelType.fnn initialLab.params.learningRate
        (targetLossOf initialLab.params.learningRate
          (Draws.mk 0 (fun _ => 0) (fun _ => 0)).target)
        initialLab.params.epochs (Draws.mk 0 (fun _ => 0) (fun _ => 0)) 50) :=
  history_capped initialLab ModelType.fnn (Draws.mk 0 (fun _ => 0) (fun _ => 0))
    ⟨by decide, by decide, Or.inr (Or.inl rfl)⟩ 50 (by decide)

/-- Each successive run state is one genuine `fire` step of the lab
transition system: the run of claim C2 is a real trace. -/
theorem runStates_is_trace (s : LabState) (m : ModelType) (d : Draws)
    (hN : 1 ≤ s.params.epochs) (k : ℕ) (hk : k + 1 ≤ s.params.epochs) :
    LabStep (runStates s m d k) (runStates s m d (k + 1)) := by
  obtain ⟨-, -, hp, -, -⟩ := runStates_spec s m d hN k (by omega)
  rw [if_pos (by omega)] at hp
  have hstep : runStates s m d (k + 1) = execTrainStep
      (RunCtx.mk m s.params.learningRate
        (targetLossOf s.params.learningRate d.target) s.params.epochs d k)
      (runStates s m d k) := by
    show (match (runStates s m d k).pending with
          | some c => execTrainStep c (runStates s m d k)
          | none => runStates s m d k) = _
    rw [hp]
  rw [hstep]
  exact LabStep.fire _ _ hp
